import Mathlib

/-!
Verification of the Gmail-Auth0 session/identity and schema-tolerant
persistence layer.

The definitions below are a shallow embedding of the server code
(auth API server: session signing, schema-tolerant user store, profile
update, People-API prefill, and the /auth/google and /me handlers).
JavaScript values that a row or request body can hold are modelled by
the type Val; JS objects are association lists from string keys to Val,
where an absent key models an undefined property; optional string
parameters are Option String, with none standing for null/undefined.
The database is a list of rows; each stored row carries one value per
existing column, SQL NULL being Val.null.  External calls (Google token
verification, the People API HTTP fetch) are passed in as parameters:
the verified claims (none when verification throws) and the parsed
response body (none when the HTTP status is not ok).
-/

namespace GmailAuth

/-- A value stored in a column, carried in a JSON body, or held by a JS
object property: SQL NULL / JS null, a string, or a number. -/
inductive Val where
  | null
  | str (s : String)
  | num (n : Nat)
deriving DecidableEq, Repr

/-- JS truthiness of an optional string (null/undefined and the empty
string are falsy). -/
def truthyStr : Option String → Bool
  | none => false
  | some s => s ≠ ""

/-- JS truthiness of a property read: undefined (none), null, the empty
string and 0 are falsy. -/
def truthyVal : Option Val → Bool
  | none => false
  | some .null => false
  | some (.str s) => s ≠ ""
  | some (.num n) => n ≠ 0

/-- Coerce an optional string parameter to the value actually stored
(null when absent). -/
def optVal : Option String → Val
  | none => .null
  | some s => .str s

/-- desiredUserFields: the full user shape expected by the frontend. -/
def desiredUserFields : List String :=
  ["id", "email", "name", "picture", "google_sub", "username", "bio", "phone",
   "address_line1", "address_line2", "address_city", "address_state",
   "address_postal", "address_country", "role"]

/-- Property read on a JS object modelled as an association list:
none models an undefined property. -/
def jsGet (o : List (String × Val)) (k : String) : Option Val :=
  (o.find? (fun p => p.1 == k)).map (fun p => p.2)

/-- Read of a column from a stored row or a parameter list: a column the
list does not carry reads as SQL NULL. -/
def getVal (row : List (String × Val)) (c : String) : Val :=
  ((row.find? (fun p => p.1 == c)).map (fun p => p.2)).getD .null

/-- The app_users relation: stored rows plus the next serial id. -/
structure Db where
  rows : List (List (String × Val))
  nextId : Nat
deriving DecidableEq, Repr

/-- JS object-key assignment o[k] = v: overwrite the entry when the key
exists, append it otherwise. -/
def assocSet (o : List (String × Val)) (k : String) (v : Val) :
    List (String × Val) :=
  if o.any (fun p => p.1 == k) then
    o.map (fun p => if p.1 == k then (p.1, v) else p)
  else o ++ [(k, v)]

/-- normalizeUser: fill missing columns with null so the frontend always
gets a full shape (start from every desired field mapped to null, then
copy the row entries over it). -/
def normalizeUser (row : List (String × Val)) : List (String × Val) :=
  row.foldl (fun acc kv => assocSet acc kv.1 kv.2)
    (desiredUserFields.map (fun f => (f, Val.null)))

/-- The select-column list: desired fields that exist in the schema. -/
def selectColumns (cols : List String) : List String :=
  desiredUserFields.filter (fun f => cols.contains f)

/-- The row a select with the select-column list returns for a stored row. -/
def sqlRowFor (cols : List String) (row : List (String × Val)) :
    List (String × Val) :=
  (selectColumns cols).map (fun c => (c, getVal row c))

/-- Normalized user produced from a stored row. -/
def normRow (cols : List String) (row : List (String × Val)) :
    List (String × Val) :=
  normalizeUser (sqlRowFor cols row)

/-- The where-clause email = $1 on a stored row. -/
def emailIs (email : String) (row : List (String × Val)) : Bool :=
  getVal row "email" == Val.str email

/-- The where-clause id = $n on a stored row. -/
def idIs (idv : Val) (row : List (String × Val)) : Bool :=
  getVal row "id" == idv

/-- selectUser: select a single user using only columns that exist;
fails when the mandatory id/email columns are missing. -/
def selectUser (cols : List String) (db : Db)
    (pred : List (String × Val) → Bool) :
    Except String (Option (List (String × Val))) :=
  if !(cols.contains "id") || !(cols.contains "email") then
    .error "app_users must include id and email columns"
  else
    .ok ((db.rows.find? pred).map (normRow cols))

/-- Verified Google ID-token claims. -/
structure Claims where
  email : Option String
  email_verified : Bool
  name : Option String
  picture : Option String
  sub : Option String
deriving DecidableEq, Repr

/-- JS String.prototype.trim: drop whitespace from both ends. -/
def jsTrim (s : String) : String :=
  String.mk
    (((s.data.dropWhile Char.isWhitespace).reverse.dropWhile
      Char.isWhitespace).reverse)

/-- JS String.prototype.toLowerCase, character by character. -/
def jsToLower (s : String) : String :=
  String.mk (s.data.map Char.toLower)

/-- JS String.prototype.toUpperCase, character by character. -/
def jsToUpper (s : String) : String :=
  String.mk (s.data.map Char.toUpper)

/-- Remove every whitespace character (the replace of \s+ by the empty
string). -/
def stripWhitespace (s : String) : String :=
  String.mk (s.data.filter (fun c => !c.isWhitespace))

/-- JS email.split at the first at-sign, index 0: the prefix before the
first at-sign (the whole string when there is none). -/
def emailLocalPart (s : String) : String :=
  String.mk (s.data.takeWhile (fun c => c ≠ '@'))

/-- deriveUsername: build a simple username from the Google profile,
falling back to the email local-part. -/
def deriveUsername (claims : Claims) : Option String :=
  let fullName := jsTrim (claims.name.getD "")
  if fullName ≠ "" then some (stripWhitespace (jsToLower fullName))
  else
    let email := jsTrim (claims.email.getD "")
    if email = "" then none
    else
      let localPart := emailLocalPart email
      if localPart = "" then none else some localPart

/-- The update list built on the found path of upsertUserByEmail:
name and picture unconditionally (when their columns exist), google_sub
when truthy, username only when the existing value is falsy and a truthy
default is supplied. -/
def upsertFoundUpdates (cols : List String) (user : List (String × Val))
    (name picture googleSub username : Option String) :
    List (String × Val) :=
  (if cols.contains "name" then [("name", optVal name)] else []) ++
  (if cols.contains "picture" then [("picture", optVal picture)] else []) ++
  (if cols.contains "google_sub" && truthyStr googleSub then
    [("google_sub", optVal googleSub)] else []) ++
  (if cols.contains "username" && !truthyVal (jsGet user "username")
      && truthyStr username then
    [("username", optVal username)] else [])

/-- Apply a SET list to a stored row: each listed column receives its new
value, every other column keeps its value. -/
def applyUpdates (row updates : List (String × Val)) :
    List (String × Val) :=
  row.map (fun p =>
    match updates.find? (fun q => q.1 == p.1) with
    | some q => (p.1, q.2)
    | none => p)

/-- The column/value list of the insert on the not-found path of
upsertUserByEmail. -/
def insertPairs (cols : List String) (email : String)
    (name picture googleSub username : Option String) :
    List (String × Val) :=
  [("email", Val.str email)] ++
  (if cols.contains "name" then [("name", optVal name)] else []) ++
  (if cols.contains "picture" then [("picture", optVal picture)] else []) ++
  (if cols.contains "google_sub" then [("google_sub", optVal googleSub)] else []) ++
  (if cols.contains "username" && truthyStr username then
    [("username", optVal username)] else []) ++
  (if cols.contains "role" then [("role", Val.str "user")] else [])

/-- The stored row an insert creates: the serial id, the inserted values,
and SQL NULL for every other existing column. -/
def insertRow (cols : List String) (nextId : Nat)
    (pairs : List (String × Val)) : List (String × Val) :=
  cols.map (fun c => (c, if c == "id" then Val.num nextId else getVal pairs c))

/-- upsertUserByEmail: insert or update a user based on email, respecting
the existing schema. -/
def upsertUserByEmail (cols : List String) (db : Db) (email : String)
    (name picture googleSub username : Option String) :
    Except String (Db × Option (List (String × Val))) :=
  if !(cols.contains "id") || !(cols.contains "email") then
    .error "app_users must include id and email columns"
  else if cols.contains "google_sub" && !truthyStr googleSub then
    .error "google_sub is required for app_users"
  else
    match selectUser cols db (emailIs email) with
    | .error e => .error e
    | .ok (some user) =>
        let updates := upsertFoundUpdates cols user name picture googleSub username
        if updates.isEmpty then .ok (db, some user)
        else
          let idv := (jsGet user "id").getD .null
          let newRows := db.rows.map (fun r =>
            if idIs idv r then applyUpdates r updates else r)
          .ok ({ db with rows := newRows },
               (newRows.find? (idIs idv)).map (normRow cols))
    | .ok none =>
        let row := insertRow cols db.nextId
          (insertPairs cols email name picture googleSub username)
        .ok ({ rows := db.rows ++ [row], nextId := db.nextId + 1 },
             some (normRow cols row))

/-- The whitelist of editable profile fields. -/
def editableProfileFields : List String :=
  ["username", "bio", "phone", "address_line1", "address_line2",
   "address_city", "address_state", "address_postal", "address_country"]

/-- The SET list of updateUserProfile: a whitelisted existing column is
included exactly when the request body carries the field as an own
property (an explicit null is an own property and is included). -/
def profileSetParts (cols : List String) (body : List (String × Val)) :
    List (String × Val) :=
  (editableProfileFields.filter (fun f => cols.contains f)).filterMap
    (fun f => (body.find? (fun p => p.1 == f)).map (fun p => (f, p.2)))

/-- updateUserProfile: accept only whitelisted profile fields, ignore
missing columns; with nothing to set, return the current record.  The
non-empty path references the id column in its where clause, so it fails
(as the SQL would) when that column does not exist. -/
def updateUserProfile (cols : List String) (db : Db) (userId : Val)
    (body : List (String × Val)) :
    Except String (Db × Option (List (String × Val))) :=
  let setParts := profileSetParts cols body
  if setParts.isEmpty then
    match selectUser cols db (idIs userId) with
    | .error e => .error e
    | .ok u => .ok (db, u)
  else if !(cols.contains "id") then
    .error "column id does not exist"
  else
    let newRows := db.rows.map (fun r =>
      if idIs userId r then applyUpdates r setParts else r)
    .ok ({ db with rows := newRows },
         (newRows.find? (idIs userId)).map (normRow cols))

/-- One entry of the phoneNumbers array of a People API response. -/
structure RawPhone where
  value : Option String
deriving DecidableEq, Repr

/-- One entry of the addresses array of a People API response. -/
structure RawAddress where
  streetAddress : Option String
  extendedAddress : Option String
  city : Option String
  region : Option String
  postalCode : Option String
  countryCode : Option String
  country : Option String
deriving DecidableEq, Repr

/-- The parsed JSON body of a successful People API response. -/
structure PeopleRaw where
  phoneNumbers : List RawPhone
  addresses : List RawAddress
deriving DecidableEq, Repr

/-- The address shape fetchPeopleProfile extracts. -/
structure Address where
  line1 : Option String
  line2 : Option String
  city : Option String
  state : Option String
  postal : Option String
  country : Option String
deriving DecidableEq, Repr

/-- The people-data shape fetchPeopleProfile returns. -/
structure People where
  phoneNumber : Option String
  address : Option Address
deriving DecidableEq, Repr

/-- fetchPeopleProfile: with a falsy access token, or when the HTTP
response is not ok (modelled by a none response body), return null;
otherwise extract the first phone number and the first address,
upper-casing the country code. -/
def fetchPeopleProfile (accessToken : Option String)
    (response : Option PeopleRaw) : Option People :=
  if !truthyStr accessToken then none
  else
    match response with
    | none => none
    | some data =>
      some
        { phoneNumber := data.phoneNumbers.head?.bind (fun p => p.value)
          address := data.addresses.head?.map (fun a =>
            { line1 := a.streetAddress
              line2 := a.extendedAddress
              city := a.city
              state := a.region
              postal := a.postalCode
              country :=
                ((a.countryCode.orElse (fun _ => a.country)).map
                  jsToUpper) }) }

/-- JS isBlank: the value is null or the empty string (an undefined
property, modelled by none, is not blank). -/
def isBlank : Option Val → Bool
  | some .null => true
  | some (.str s) => s == ""
  | _ => false

/-- buildPrefillUpdates: prefill only missing fields so user edits are
preserved; each people-data field enters the update object only when it
is truthy and the user's current value is blank. -/
def buildPrefillUpdates (user : Option (List (String × Val)))
    (people : Option People) : List (String × Val) :=
  match user, people with
  | some u, some p =>
    (if truthyStr p.phoneNumber && isBlank (jsGet u "phone") then
      [("phone", optVal p.phoneNumber)] else []) ++
    (match p.address with
     | some a =>
       (if truthyStr a.line1 && isBlank (jsGet u "address_line1") then
         [("address_line1", optVal a.line1)] else []) ++
       (if truthyStr a.line2 && isBlank (jsGet u "address_line2") then
         [("address_line2", optVal a.line2)] else []) ++
       (if truthyStr a.city && isBlank (jsGet u "address_city") then
         [("address_city", optVal a.city)] else []) ++
       (if truthyStr a.state && isBlank (jsGet u "address_state") then
         [("address_state", optVal a.state)] else []) ++
       (if truthyStr a.postal && isBlank (jsGet u "address_postal") then
         [("address_postal", optVal a.postal)] else []) ++
       (if truthyStr a.country && isBlank (jsGet u "address_country") then
         [("address_country", optVal a.country)] else [])
     | none => [])
  | _, _ => []

/-- A signed session token: the payload (the user id under the uid key
and the expiry timestamp, in seconds) together with the key that signed
it; the signature check is modelled as comparing that key with the
verifier's secret. -/
structure SessionToken where
  uid : Val
  exp : Nat
  key : String
deriving DecidableEq, Repr

/-- The 7-day session lifetime, in seconds. -/
def sessionMaxAgeSeconds : Nat := 7 * 24 * 60 * 60

/-- signSession: sign the payload with the configured secret and a 7-day
expiry. -/
def signSession (secret : String) (uid : Val) (now : Nat) : SessionToken :=
  { uid := uid, exp := now + sessionMaxAgeSeconds, key := secret }

/-- verifySession: reject a token whose signature does not match the
secret, then reject it when the current time has reached its expiry
(the verifier throws TokenExpiredError when now is at least exp);
otherwise return the payload's uid. -/
def verifySession (secret : String) (token : SessionToken) (now : Nat) :
    Except String Val :=
  if token.key ≠ secret then .error "invalid signature"
  else if token.exp ≤ now then .error "jwt expired"
  else .ok token.uid

/-- The observable outcome of a POST /auth/google request: HTTP status,
the JSON user payload (none when the response is an error), the session
cookie set by the response (none when no cookie is set), and the
database state after the request. -/
structure AuthResult where
  status : Nat
  user : Option (List (String × Val))
  cookie : Option SessionToken
  db : Db
deriving DecidableEq, Repr

/-- The POST /auth/google handler.  The verified parameter is the result
of the Google ID-token verification (none when verification throws, in
which case the catch answers 401); peopleResponse is the body of the
People API call when its HTTP status is ok, none otherwise. -/
def authGoogle (cols : List String) (db : Db) (secret : String) (now : Nat)
    (idToken accessToken : Option String) (verified : Option Claims)
    (peopleResponse : Option PeopleRaw) : AuthResult :=
  if !truthyStr idToken then ⟨400, none, none, db⟩
  else
    match verified with
    | none => ⟨401, none, none, db⟩
    | some claims =>
      if !truthyStr claims.email then ⟨401, none, none, db⟩
      else if !claims.email_verified then ⟨401, none, none, db⟩
      else
        match upsertUserByEmail cols db (claims.email.getD "") claims.name
            claims.picture claims.sub (deriveUsername claims) with
        | .error _ => ⟨401, none, none, db⟩
        | .ok (db1, user1) =>
          if !truthyVal (user1.bind (fun u => jsGet u "id")) then
            ⟨500, none, none, db1⟩
          else
            match
              (if truthyStr accessToken then
                let updates := buildPrefillUpdates user1
                  (fetchPeopleProfile accessToken peopleResponse)
                if !updates.isEmpty then
                  updateUserProfile cols db1
                    ((user1.bind (fun u => jsGet u "id")).getD .null) updates
                else .ok (db1, user1)
              else .ok (db1, user1)) with
            | .error _ => ⟨401, none, none, db1⟩
            | .ok (db2, user2) =>
              match user2 with
              | none => ⟨401, none, none, db2⟩
              | some u =>
                ⟨200, some u,
                 some (signSession secret ((jsGet u "id").getD .null) now),
                 db2⟩

/-- The GET /me handler: its HTTP status and JSON user payload. -/
def meHandler (cols : List String) (db : Db) (secret : String) (now : Nat)
    (cookie : Option SessionToken) : Nat × Option (List (String × Val)) :=
  match cookie with
  | none => (401, none)
  | some token =>
    match verifySession secret token now with
    | .error _ => (401, none)
    | .ok uid =>
      match selectUser cols db (idIs uid) with
      | .error _ => (401, none)
      | .ok none => (401, none)
      | .ok (some u) => (200, some u)

/-! Lookup lemmas for the association-list object model. -/

theorem jsGet_cons (p : String × Val) (o : List (String × Val)) (k : String) :
    jsGet (p :: o) k = if p.1 = k then some p.2 else jsGet o k := by
  by_cases h : p.1 = k
  · simp [jsGet, List.find?_cons_of_pos, h]
  · simp [jsGet, List.find?_cons_of_neg, h]

theorem getVal_eq_jsGet (row : List (String × Val)) (k : String) :
    getVal row k = (jsGet row k).getD .null := rfl

theorem jsGet_eq_none (o : List (String × Val)) (k : String)
    (h : ∀ p ∈ o, p.1 ≠ k) : jsGet o k = none := by
  unfold jsGet
  rw [List.find?_eq_none.mpr]
  · rfl
  · intro p hp
    simp [h p hp]

theorem jsGet_append (o₁ o₂ : List (String × Val)) (k : String) :
    jsGet (o₁ ++ o₂) k = (jsGet o₁ k).or (jsGet o₂ k) := by
  unfold jsGet
  rw [List.find?_append]
  cases o₁.find? (fun p => p.1 == k) <;> simp

theorem jsGet_assocSet (o : List (String × Val)) (k' : String) (v : Val)
    (k : String) :
    jsGet (assocSet o k' v) k = if k = k' then some v else jsGet o k := by
  unfold assocSet
  by_cases hmem : o.any (fun p => p.1 == k') = true
  · simp only [hmem, if_true]
    unfold jsGet
    rw [List.find?_map]
    have hpre : ((fun p : String × Val => p.1 == k) ∘
        (fun p : String × Val => if p.1 == k' then (p.1, v) else p)) =
        (fun p : String × Val => p.1 == k) := by
      funext p
      by_cases h : p.1 = k' <;> simp [h]
    rw [hpre]
    by_cases hk : k = k'
    · subst hk
      obtain ⟨p, hp, hpk⟩ := List.any_eq_true.mp hmem
      have hsome : (o.find? (fun p => p.1 == k)).isSome := by
        rw [List.find?_isSome]
        exact ⟨p, hp, hpk⟩
      obtain ⟨q, hq⟩ := Option.isSome_iff_exists.mp hsome
      have hqk : q.1 = k := by
        have := List.find?_some hq
        simpa using this
      simp [hq, hqk]
    · cases hfind : o.find? (fun p => p.1 == k) with
      | none => simp [hk, jsGet, hfind]
      | some q =>
        have hqk : q.1 = k := by
          have := List.find?_some hfind
          simpa using this
        have hqk' : (q.1 == k') = false := by
          rw [hqk]
          exact beq_eq_false_iff_ne.mpr hk
        have hcond : ¬ q.1 = k' := by
          rw [hqk]
          exact hk
        simp [hk, hqk', hcond, jsGet, hfind]
  · rw [if_neg hmem]
    rw [jsGet_append]
    by_cases hk : k = k'
    · subst hk
      have hnone : jsGet o k = none := by
        apply jsGet_eq_none
        intro p hp hpk
        exact hmem (List.any_eq_true.mpr ⟨p, hp, by simp [hpk]⟩)
      rw [hnone, jsGet_cons]
      simp [jsGet]
    · have hone : jsGet [(k', v)] k = none := by
        rw [jsGet_cons]
        simp [jsGet, Ne.symm hk]
      rw [hone]
      cases hfind : jsGet o k <;> simp [hk]

theorem find?_keyed (l : List String) (g : String → Val) (k : String) :
    (l.map (fun c => (c, g c))).find? (fun p => p.1 == k) =
      if k ∈ l then some (k, g k) else none := by
  induction l with
  | nil => simp
  | cons c l ih =>
    by_cases h : c = k
    · subst h
      simp [List.find?_cons_of_pos]
    · rw [List.map_cons, List.find?_cons_of_neg _ (by simp [h])]
      rw [ih]
      have hkc : ¬ k = c := fun hh => h hh.symm
      simp [List.mem_cons, hkc]

theorem jsGet_keyed (l : List String) (g : String → Val) (k : String) :
    jsGet (l.map (fun c => (c, g c))) k = if k ∈ l then some (g k) else none := by
  unfold jsGet
  rw [find?_keyed]
  by_cases h : k ∈ l <;> simp [h]

theorem getVal_keyed (l : List String) (g : String → Val) (k : String) :
    getVal (l.map (fun c => (c, g c))) k = if k ∈ l then g k else .null := by
  rw [getVal_eq_jsGet, jsGet_keyed]
  by_cases h : k ∈ l <;> simp [h]

/-! Characterization of normalizeUser and normRow. -/

theorem jsGet_foldl_of_not_mem (l acc : List (String × Val)) (k : String)
    (h : ∀ kv ∈ l, kv.1 ≠ k) :
    jsGet (l.foldl (fun a kv => assocSet a kv.1 kv.2) acc) k = jsGet acc k := by
  induction l generalizing acc with
  | nil => rfl
  | cons x xs ih =>
    rw [List.foldl_cons]
    rw [ih _ (fun kv hkv => h kv (List.mem_cons_of_mem _ hkv))]
    rw [jsGet_assocSet]
    have hne : ¬ k = x.1 := fun hh => h x (List.mem_cons_self _ _) hh.symm
    simp [hne]

theorem jsGet_foldl (l acc : List (String × Val)) (k : String)
    (hnd : (l.map Prod.fst).Nodup) :
    jsGet (l.foldl (fun a kv => assocSet a kv.1 kv.2) acc) k =
      (jsGet l k).or (jsGet acc k) := by
  induction l generalizing acc with
  | nil => simp [jsGet]
  | cons x xs ih =>
    rw [List.map_cons, List.nodup_cons] at hnd
    rw [List.foldl_cons, ih _ hnd.2, jsGet_assocSet, jsGet_cons]
    by_cases hk : x.1 = k
    · have hxs : jsGet xs k = none := by
        apply jsGet_eq_none
        intro p hp hpk
        exact hnd.1 (by rw [hk, ← hpk]; exact List.mem_map_of_mem Prod.fst hp)
      simp [hk, hxs]
    · have hk' : ¬ k = x.1 := fun hh => hk hh.symm
      simp [hk, hk']

theorem keys_assocSet_of_mem (o : List (String × Val)) (k : String) (v : Val)
    (h : k ∈ o.map Prod.fst) :
    (assocSet o k v).map Prod.fst = o.map Prod.fst := by
  unfold assocSet
  have hany : o.any (fun p => p.1 == k) = true := by
    rw [List.any_eq_true]
    obtain ⟨p, hp, hpk⟩ := List.mem_map.mp h
    exact ⟨p, hp, by simp [hpk]⟩
  rw [if_pos hany, List.map_map]
  apply List.map_congr_left
  intro p _
  by_cases hpk : p.1 = k <;> simp [hpk]

theorem keys_foldl (l acc : List (String × Val))
    (h : ∀ kv ∈ l, kv.1 ∈ acc.map Prod.fst) :
    (l.foldl (fun a kv => assocSet a kv.1 kv.2) acc).map Prod.fst =
      acc.map Prod.fst := by
  induction l generalizing acc with
  | nil => rfl
  | cons x xs ih =>
    rw [List.foldl_cons]
    have hkeys := keys_assocSet_of_mem acc x.1 x.2
      (h x (List.mem_cons_self _ _))
    rw [ih _ (fun kv hkv => by
      rw [hkeys]
      exact h kv (List.mem_cons_of_mem _ hkv))]
    exact hkeys

theorem jsGet_baseNull (k : String) :
    jsGet (desiredUserFields.map (fun f => (f, Val.null))) k =
      if k ∈ desiredUserFields then some Val.null else none := by
  have := jsGet_keyed desiredUserFields (fun _ => Val.null) k
  simpa using this

theorem keys_baseNull :
    (desiredUserFields.map (fun f => (f, Val.null))).map Prod.fst =
      desiredUserFields := rfl

theorem jsGet_normalizeUser (row : List (String × Val)) (k : String)
    (hnd : (row.map Prod.fst).Nodup) :
    jsGet (normalizeUser row) k =
      (jsGet row k).or
        (if k ∈ desiredUserFields then some Val.null else none) := by
  unfold normalizeUser
  rw [jsGet_foldl _ _ _ hnd, jsGet_baseNull]

theorem keys_normalizeUser (row : List (String × Val))
    (h : ∀ kv ∈ row, kv.1 ∈ desiredUserFields) :
    (normalizeUser row).map Prod.fst = desiredUserFields := by
  unfold normalizeUser
  rw [keys_foldl, keys_baseNull]
  intro kv hkv
  rw [keys_baseNull]
  exact h kv hkv

theorem mem_selectColumns (cols : List String) (f : String) :
    f ∈ selectColumns cols ↔ f ∈ desiredUserFields ∧ cols.contains f = true := by
  unfold selectColumns
  exact List.mem_filter

theorem nodup_desiredUserFields : desiredUserFields.Nodup := by decide

theorem jsGet_sqlRowFor (cols : List String) (row : List (String × Val))
    (f : String) :
    jsGet (sqlRowFor cols row) f =
      if f ∈ selectColumns cols then some (getVal row f) else none := by
  unfold sqlRowFor
  have := jsGet_keyed (selectColumns cols) (fun c => getVal row c) f
  simpa using this

theorem keys_sqlRowFor (cols : List String) (row : List (String × Val)) :
    (sqlRowFor cols row).map Prod.fst = selectColumns cols := by
  unfold sqlRowFor
  rw [List.map_map]
  simp [Function.comp_def]

theorem jsGet_normRow (cols : List String) (row : List (String × Val))
    (f : String) :
    jsGet (normRow cols row) f =
      if f ∈ desiredUserFields then
        some (if cols.contains f then getVal row f else Val.null)
      else none := by
  unfold normRow
  rw [jsGet_normalizeUser]
  · rw [jsGet_sqlRowFor]
    by_cases hd : f ∈ desiredUserFields
    · by_cases hc : cols.contains f = true
      · have hm : f ∈ cols := List.elem_iff.mp hc
        simp [mem_selectColumns, hd, hc, hm]
      · have hm : ¬ f ∈ cols := fun hh => hc (List.elem_iff.mpr hh)
        simp [mem_selectColumns, hd, hc, hm]
    · have : ¬ f ∈ selectColumns cols := fun hh =>
        hd ((mem_selectColumns cols f).mp hh).1
      simp [this, hd]
  · rw [keys_sqlRowFor]
    exact List.Nodup.filter _ nodup_desiredUserFields

theorem keys_normRow (cols : List String) (row : List (String × Val)) :
    (normRow cols row).map Prod.fst = desiredUserFields := by
  unfold normRow
  apply keys_normalizeUser
  intro kv hkv
  have : kv.1 ∈ (sqlRowFor cols row).map Prod.fst :=
    List.mem_map_of_mem Prod.fst hkv
  rw [keys_sqlRowFor] at this
  exact ((mem_selectColumns cols kv.1).mp this).1

/-! Lemmas on the update and insert primitives. -/

theorem getVal_applyUpdates (row updates : List (String × Val)) (c : String) :
    getVal (applyUpdates row updates) c =
      match row.find? (fun p => p.1 == c) with
      | none => Val.null
      | some p =>
        match updates.find? (fun q => q.1 == c) with
        | some q => q.2
        | none => p.2 := by
  unfold applyUpdates getVal
  rw [List.find?_map]
  have hpre : ((fun p : String × Val => p.1 == c) ∘ (fun p : String × Val =>
      match updates.find? (fun q => q.1 == p.1) with
      | some q => (p.1, q.2)
      | none => p)) = (fun p : String × Val => p.1 == c) := by
    funext p
    cases h : updates.find? (fun q => q.1 == p.1) <;> simp [h]
  rw [hpre]
  cases hfind : row.find? (fun p => p.1 == c) with
  | none => rfl
  | some p =>
    have hpc : p.1 = c := by simpa using List.find?_some hfind
    simp only [Option.map_some']
    rw [hpc]
    cases h2 : updates.find? (fun q => q.1 == c) <;> simp

theorem getVal_applyUpdates_of_none (row updates : List (String × Val))
    (c : String) (h : updates.find? (fun q => q.1 == c) = none) :
    getVal (applyUpdates row updates) c = getVal row c := by
  rw [getVal_applyUpdates, h]
  cases hfind : row.find? (fun p => p.1 == c) <;> simp [getVal, hfind]

theorem keys_applyUpdates (row updates : List (String × Val)) :
    (applyUpdates row updates).map Prod.fst = row.map Prod.fst := by
  unfold applyUpdates
  rw [List.map_map]
  apply List.map_congr_left
  intro p _
  cases h : updates.find? (fun q => q.1 == p.1) <;> simp [h]

theorem getVal_insertRow (cols : List String) (n : Nat)
    (pairs : List (String × Val)) (c : String) :
    getVal (insertRow cols n pairs) c =
      if c ∈ cols then (if c = "id" then Val.num n else getVal pairs c)
      else Val.null := by
  unfold insertRow
  have := getVal_keyed cols
    (fun c => if c == "id" then Val.num n else getVal pairs c) c
  simpa using this

/-! Membership characterizations of the generated update lists. -/

theorem mem_upsertFoundUpdates (cols : List String)
    (user : List (String × Val)) (n p g un : Option String)
    (q : String × Val) :
    q ∈ upsertFoundUpdates cols user n p g un ↔
      (cols.contains "name" = true ∧ q = ("name", optVal n)) ∨
      (cols.contains "picture" = true ∧ q = ("picture", optVal p)) ∨
      ((cols.contains "google_sub" && truthyStr g) = true ∧
        q = ("google_sub", optVal g)) ∨
      ((cols.contains "username" && !truthyVal (jsGet user "username")
          && truthyStr un) = true ∧ q = ("username", optVal un)) := by
  have hite : ∀ (b : Bool) (x : String × Val),
      (q ∈ if b then [x] else ([] : List (String × Val))) ↔
        b = true ∧ q = x := by
    intro b x
    cases b <;> simp
  unfold upsertFoundUpdates
  simp only [List.mem_append, hite]
  tauto

theorem mem_profileSetParts (cols : List String)
    (body : List (String × Val)) (f : String) (v : Val) :
    (f, v) ∈ profileSetParts cols body ↔
      f ∈ editableProfileFields ∧ cols.contains f = true ∧
        jsGet body f = some v := by
  unfold profileSetParts
  rw [List.mem_filterMap]
  constructor
  · rintro ⟨a, ha, hmap⟩
    rw [List.mem_filter] at ha
    cases hfind : body.find? (fun p => p.1 == a) with
    | none =>
      rw [hfind] at hmap
      simp at hmap
    | some p =>
      rw [hfind] at hmap
      simp at hmap
      obtain ⟨haf, hpv⟩ := hmap
      subst haf
      exact ⟨ha.1, ha.2, by simp [jsGet, hfind, hpv]⟩
  · rintro ⟨hf, hc, hget⟩
    refine ⟨f, List.mem_filter.mpr ⟨hf, hc⟩, ?_⟩
    unfold jsGet at hget
    cases hfind : body.find? (fun p => p.1 == f) with
    | none =>
      rw [hfind] at hget
      simp at hget
    | some p =>
      rw [hfind] at hget
      simp at hget
      simp [hfind, hget]

theorem profileSetParts_keys (cols : List String)
    (body : List (String × Val)) (q : String × Val)
    (hq : q ∈ profileSetParts cols body) : q.1 ∈ editableProfileFields := by
  obtain ⟨f, v⟩ := q
  exact ((mem_profileSetParts cols body f v).mp hq).1

theorem mem_ite_singleton (b : Bool) (x q : String × Val) :
    (q ∈ if b then [x] else ([] : List (String × Val))) ↔ b = true ∧ q = x := by
  cases b <;> simp

theorem selectUser_eq (cols : List String) (db : Db)
    (pred : List (String × Val) → Bool)
    (hid : "id" ∈ cols) (hem : "email" ∈ cols) :
    selectUser cols db pred =
      .ok ((db.rows.find? pred).map (normRow cols)) := by
  unfold selectUser
  simp [hid, hem]

/-- Claim C7: when the discovered column set contains google_sub (and the
mandatory id and email columns) but no external id is supplied, and the
email has no existing row, upsertUserByEmail fails with the schema error
and returns no database state: no row is inserted. -/
theorem upsert_missing_google_sub_fails (cols : List String) (db : Db)
    (email : String) (n p un : Option String)
    (hid : "id" ∈ cols) (hem : "email" ∈ cols) (hgs : "google_sub" ∈ cols)
    (_hnofound : db.rows.find? (emailIs email) = none) :
    upsertUserByEmail cols db email n p none un =
      .error "google_sub is required for app_users" := by
  unfold upsertUserByEmail
  simp [hid, hem, hgs, truthyStr]

/-- Witness for C7 at a concrete schema and empty store. -/
theorem upsert_missing_google_sub_fails_witness :
    upsertUserByEmail desiredUserFields ⟨[], 1⟩ "a@x.com" none none none none =
      .error "google_sub is required for app_users" :=
  upsert_missing_google_sub_fails desiredUserFields ⟨[], 1⟩ "a@x.com" none none
    none (by decide) (by decide) (by decide) rfl

/-- Claim C2: a verified identity assertion whose claims carry
email_verified = false makes the /auth/google handler answer 401 with no
user payload, no session cookie, and an unchanged user store. -/
theorem authGoogle_unverified_email_rejected (cols : List String) (db : Db)
    (secret : String) (now : Nat) (idToken accessToken : Option String)
    (claims : Claims) (resp : Option PeopleRaw)
    (hid : truthyStr idToken = true)
    (hv : claims.email_verified = false) :
    authGoogle cols db secret now idToken accessToken (some claims) resp =
      ⟨401, none, none, db⟩ := by
  unfold authGoogle
  by_cases he : truthyStr claims.email = true
  · simp [hid, he, hv]
  · simp [hid, he]

/-- Witness for C2 at a concrete unverified assertion. -/
theorem authGoogle_unverified_email_rejected_witness :
    authGoogle desiredUserFields ⟨[], 1⟩ "k" 0 (some "t") none
      (some ⟨some "a@x.com", false, some "Ada", none, some "g-1"⟩) none =
      ⟨401, none, none, ⟨[], 1⟩⟩ :=
  authGoogle_unverified_email_rejected desiredUserFields ⟨[], 1⟩ "k" 0
    (some "t") none ⟨some "a@x.com", false, some "Ada", none, some "g-1"⟩ none
    (by decide) (by decide)

/-- Claim C8: a session token whose embedded expiry has passed fails
verifySession with an error rather than returning a user id, and a GET
/me request carrying it as its session cookie answers 401. -/
theorem expired_session_rejected (cols : List String) (db : Db)
    (secret : String) (token : SessionToken) (now : Nat)
    (hexp : token.exp < now) :
    (∃ e, verifySession secret token now = .error e) ∧
      meHandler cols db secret now (some token) = (401, none) := by
  have hv : ∃ e, verifySession secret token now = .error e := by
    unfold verifySession
    by_cases hk : token.key = secret
    · exact ⟨"jwt expired", by simp [hk, Nat.le_of_lt hexp]⟩
    · exact ⟨"invalid signature", by simp [hk]⟩
  refine ⟨hv, ?_⟩
  obtain ⟨e, he⟩ := hv
  unfold meHandler
  simp [he]

/-- Witness for C8 at a concrete expired token. -/
theorem expired_session_rejected_witness :
    (∃ e, verifySession "k" ⟨Val.num 1, 5, "k"⟩ 10 = .error e) ∧
      meHandler desiredUserFields ⟨[], 1⟩ "k" 10 (some ⟨Val.num 1, 5, "k"⟩) =
        (401, none) :=
  expired_session_rejected desiredUserFields ⟨[], 1⟩ "k" ⟨Val.num 1, 5, "k"⟩ 10
    (by decide)

/-- Claim C5: buildPrefillUpdates includes a field in the update set only
when it is phone or one of the six address fields and the user's current
value for it is blank (null or the empty string); a non-blank existing
value is never listed for overwriting. -/
theorem prefill_only_blank_fields (u : List (String × Val))
    (people : Option People) (f : String) (v : Val)
    (hmem : (f, v) ∈ buildPrefillUpdates (some u) people) :
    isBlank (jsGet u f) = true ∧
      f ∈ ["phone", "address_line1", "address_line2", "address_city",
           "address_state", "address_postal", "address_country"] := by
  cases people with
  | none => simp [buildPrefillUpdates] at hmem
  | some p =>
    obtain ⟨pn, paddr⟩ := p
    cases paddr with
    | none =>
      simp only [buildPrefillUpdates, List.mem_append, mem_ite_singleton,
        List.not_mem_nil, or_false, Prod.mk.injEq] at hmem
      obtain ⟨hcond, hf, _⟩ := hmem
      subst hf
      simp only [Bool.and_eq_true] at hcond
      exact ⟨hcond.2, by decide⟩
    | some a =>
      simp only [buildPrefillUpdates, List.mem_append, mem_ite_singleton,
        List.not_mem_nil, or_false, Prod.mk.injEq, or_assoc] at hmem
      rcases hmem with ⟨hcond, hf, _⟩ | ⟨hcond, hf, _⟩ |
        ⟨hcond, hf, _⟩ | ⟨hcond, hf, _⟩ | ⟨hcond, hf, _⟩ |
        ⟨hcond, hf, _⟩ | ⟨hcond, hf, _⟩ <;>
      · subst hf
        simp only [Bool.and_eq_true] at hcond
        exact ⟨hcond.2, by decide⟩

/-- Witness for C5 at a concrete user with a blank phone. -/
theorem prefill_only_blank_fields_witness :
    isBlank (jsGet [("phone", Val.null)] "phone") = true ∧
      "phone" ∈ ["phone", "address_line1", "address_line2", "address_city",
           "address_state", "address_postal", "address_country"] :=
  prefill_only_blank_fields [("phone", Val.null)]
    (some ⟨some "555-0100", none⟩) "phone" (Val.str "555-0100") (by decide)

/-- Claim C1 as stated is false on the code: a field supplied with an
explicit null is an own property of the body, so it is not suppressed:
it enters the generated SET list and clears the stored column.  With bio
stored as the string hello and a body carrying bio with an explicit null,
the SET list contains bio and the stored value changes to null. -/
theorem explicit_null_clears_column_counterexample :
    ("bio", Val.null) ∈ profileSetParts desiredUserFields [("bio", Val.null)] ∧
      (updateUserProfile desiredUserFields
          ⟨[[("id", Val.num 1), ("email", Val.str "a@x.com"),
             ("bio", Val.str "hello")]], 2⟩
          (Val.num 1) [("bio", Val.null)]).map
        (fun r => r.1.rows.map (fun row => getVal row "bio")) =
        .ok [Val.null] := ⟨by decide, rfl⟩

/-- Claim C1 amended: an editable field's column is included in the
update exactly when the field is supplied as an own property of the
request body (and its column exists): an absent field is suppressed, but
an explicitly supplied null is included and sets the column to null. -/
theorem profile_update_applies_supplied_fields (cols : List String)
    (body : List (String × Val)) (f : String) (v : Val) :
    (f, v) ∈ profileSetParts cols body ↔
      f ∈ editableProfileFields ∧ cols.contains f = true ∧
        jsGet body f = some v :=
  mem_profileSetParts cols body f v

/-- Claim C10: whatever fields the request body contains, the columns id,
email, name, picture, google_sub and role are never part of the SET list
generated by updateUserProfile, and every stored row's value for those
columns is unchanged by the operation. -/
theorem profile_update_frame (cols : List String) (db : Db) (userId : Val)
    (body : List (String × Val)) (db2 : Db)
    (u2 : Option (List (String × Val))) (f : String)
    (hok : updateUserProfile cols db userId body = .ok (db2, u2))
    (hf : f ∈ ["id", "email", "name", "picture", "google_sub", "role"]) :
    (∀ v, (f, v) ∉ profileSetParts cols body) ∧
      db2.rows.map (fun row => getVal row f) =
        db.rows.map (fun row => getVal row f) := by
  have hfe : ¬ f ∈ editableProfileFields := by
    fin_cases hf <;> decide
  have hnotin : ∀ v, (f, v) ∉ profileSetParts cols body := by
    intro v hv
    exact hfe ((mem_profileSetParts cols body f v).mp hv).1
  refine ⟨hnotin, ?_⟩
  have hfind : (profileSetParts cols body).find? (fun q => q.1 == f) = none := by
    rw [List.find?_eq_none]
    intro q hq hq2
    have hmemq : q.1 ∈ editableProfileFields := profileSetParts_keys cols body q hq
    have hq1 : q.1 = f := by simpa using hq2
    rw [hq1] at hmemq
    exact hfe hmemq
  simp only [updateUserProfile] at hok
  by_cases hempty : (profileSetParts cols body).isEmpty = true
  · rw [if_pos hempty] at hok
    cases hsel : selectUser cols db (idIs userId) with
    | error e =>
      rw [hsel] at hok
      cases hok
    | ok u =>
      rw [hsel] at hok
      simp only [Except.ok.injEq, Prod.mk.injEq] at hok
      rw [← hok.1]
  · rw [if_neg hempty] at hok
    cases hidc : cols.contains "id" with
    | false =>
      rw [hidc] at hok
      simp only [Bool.not_false] at hok
      rw [if_pos (by decide)] at hok
      cases hok
    | true =>
      rw [hidc] at hok
      simp only [Bool.not_true] at hok
      rw [if_neg (by decide)] at hok
      simp only [Except.ok.injEq, Prod.mk.injEq] at hok
      rw [← hok.1]
      rw [List.map_map]
      apply List.map_congr_left
      intro r _
      simp only [Function.comp]
      by_cases hid : idIs userId r = true
      · rw [if_pos hid]
        exact getVal_applyUpdates_of_none r (profileSetParts cols body) f hfind
      · rw [if_neg hid]

/-- Witness for C10: a body supplying role does not change the stored
role column. -/
theorem profile_update_frame_witness :
    (∀ v, ("role", v) ∉ profileSetParts desiredUserFields
        [("bio", Val.str "x"), ("role", Val.str "admin")]) ∧
      (⟨[[("id", Val.num 1), ("email", Val.str "a@x.com"),
          ("bio", Val.str "x"), ("role", Val.str "user")]], 2⟩ : Db).rows.map
          (fun row => getVal row "role") =
        (⟨[[("id", Val.num 1), ("email", Val.str "a@x.com"),
            ("bio", Val.null), ("role", Val.str "user")]], 2⟩ : Db).rows.map
          (fun row => getVal row "role") :=
  profile_update_frame desiredUserFields
    ⟨[[("id", Val.num 1), ("email", Val.str "a@x.com"),
       ("bio", Val.null), ("role", Val.str "user")]], 2⟩
    (Val.num 1) [("bio", Val.str "x"), ("role", Val.str "admin")]
    ⟨[[("id", Val.num 1), ("email", Val.str "a@x.com"),
       ("bio", Val.str "x"), ("role", Val.str "user")]], 2⟩
    (some [("id", Val.num 1), ("email", Val.str "a@x.com"),
      ("name", Val.null), ("picture", Val.null), ("google_sub", Val.null),
      ("username", Val.null), ("bio", Val.str "x"), ("phone", Val.null),
      ("address_line1", Val.null), ("address_line2", Val.null),
      ("address_city", Val.null), ("address_state", Val.null),
      ("address_postal", Val.null), ("address_country", Val.null),
      ("role", Val.str "user")])
    "role" rfl (by decide)

/-! Path lemmas for upsertUserByEmail. -/

theorem upsert_found (cols : List String) (db : Db) (email : String)
    (n p g un : Option String) (r : List (String × Val))
    (hid : "id" ∈ cols) (hem : "email" ∈ cols)
    (hgs : (cols.contains "google_sub" && !truthyStr g) = false)
    (hr : db.rows.find? (emailIs email) = some r) :
    upsertUserByEmail cols db email n p g un =
      (let user := normRow cols r
       let updates := upsertFoundUpdates cols user n p g un
       if updates.isEmpty then .ok (db, some user)
       else
         let idv := (jsGet user "id").getD .null
         let newRows := db.rows.map (fun row =>
           if idIs idv row then applyUpdates row updates else row)
         .ok ({ db with rows := newRows },
              (newRows.find? (idIs idv)).map (normRow cols))) := by
  have hcid : cols.contains "id" = true := List.elem_iff.mpr hid
  have hcem : cols.contains "email" = true := List.elem_iff.mpr hem
  unfold upsertUserByEmail
  rw [hcid, hcem, hgs]
  simp only [Bool.not_true, Bool.or_self]
  rw [if_neg (by decide), if_neg (by decide)]
  rw [selectUser_eq cols db (emailIs email) hid hem, hr]
  simp only [Option.map_some']

theorem upsert_notfound (cols : List String) (db : Db) (email : String)
    (n p g un : Option String)
    (hid : "id" ∈ cols) (hem : "email" ∈ cols)
    (hgs : (cols.contains "google_sub" && !truthyStr g) = false)
    (hr : db.rows.find? (emailIs email) = none) :
    upsertUserByEmail cols db email n p g un =
      .ok ({ rows := db.rows ++
               [insertRow cols db.nextId (insertPairs cols email n p g un)],
             nextId := db.nextId + 1 },
           some (normRow cols
             (insertRow cols db.nextId (insertPairs cols email n p g un)))) := by
  have hcid : cols.contains "id" = true := List.elem_iff.mpr hid
  have hcem : cols.contains "email" = true := List.elem_iff.mpr hem
  unfold upsertUserByEmail
  rw [hcid, hcem, hgs]
  simp only [Bool.not_true, Bool.or_self]
  rw [if_neg (by decide), if_neg (by decide)]
  rw [selectUser_eq cols db (emailIs email) hid hem, hr]
  simp only [Option.map_none']

/-- Claim C3: on a repeat login (found path of upsertUserByEmail), when
the existing row's username is a non-empty string, the username column is
not part of the generated update and every stored row keeps its username
value; in general, the found path writes username only when the existing
value is falsy and a truthy default is supplied. -/
theorem username_never_clobbered (cols : List String) (db : Db)
    (email : String) (n p g un : Option String) (r : List (String × Val))
    (db2 : Db) (u2 : Option (List (String × Val))) (s : String)
    (hid : "id" ∈ cols) (hem : "email" ∈ cols) (hucol : "username" ∈ cols)
    (hr : db.rows.find? (emailIs email) = some r)
    (hs : getVal r "username" = Val.str s) (hne : s ≠ "")
    (hok : upsertUserByEmail cols db email n p g un = .ok (db2, u2)) :
    (∀ v, ("username", v) ∉ upsertFoundUpdates cols (normRow cols r) n p g un) ∧
      db2.rows.map (fun row => getVal row "username") =
        db.rows.map (fun row => getVal row "username") ∧
      (∀ user v, ("username", v) ∈ upsertFoundUpdates cols user n p g un →
        truthyVal (jsGet user "username") = false ∧ un ≠ none) := by
  have hcu : cols.contains "username" = true := List.elem_iff.mpr hucol
  have htruthy : truthyVal (jsGet (normRow cols r) "username") = true := by
    rw [jsGet_normRow]
    rw [if_pos (by decide), if_pos hcu, hs]
    simp [truthyVal, hne]
  have hgen : ∀ (user : List (String × Val)) (v : Val),
      ("username", v) ∈ upsertFoundUpdates cols user n p g un →
        truthyVal (jsGet user "username") = false ∧ un ≠ none := by
    intro user v hv
    rcases (mem_upsertFoundUpdates cols user n p g un _).mp hv with
      ⟨_, hq⟩ | ⟨_, hq⟩ | ⟨_, hq⟩ | ⟨hc, _⟩
    · simp at hq
    · simp at hq
    · simp at hq
    · simp only [Bool.and_eq_true, Bool.not_eq_true'] at hc
      refine ⟨hc.1.2, ?_⟩
      intro hun
      rw [hun] at hc
      simp [truthyStr] at hc
  have hnotin : ∀ v,
      ("username", v) ∉ upsertFoundUpdates cols (normRow cols r) n p g un := by
    intro v hv
    have := (hgen _ v hv).1
    rw [htruthy] at this
    cases this
  refine ⟨hnotin, ?_, hgen⟩
  have hfind : (upsertFoundUpdates cols (normRow cols r) n p g un).find?
      (fun q => q.1 == "username") = none := by
    rw [List.find?_eq_none]
    intro q hq hq2
    have hq1 : q.1 = "username" := by simpa using hq2
    exact hnotin q.2 (by rw [← hq1]; exact hq)
  by_cases hgsb : (cols.contains "google_sub" && !truthyStr g) = true
  · rw [upsertUserByEmail] at hok
    rw [hgsb] at hok
    have hcid : cols.contains "id" = true := List.elem_iff.mpr hid
    have hcem : cols.contains "email" = true := List.elem_iff.mpr hem
    rw [hcid, hcem] at hok
    simp only [Bool.not_true, Bool.or_self] at hok
    rw [if_pos (by trivial)] at hok
    cases hok
  · rw [upsert_found cols db email n p g un r hid hem
      (Bool.not_eq_true _ ▸ hgsb) hr] at hok
    simp only at hok
    by_cases hempty :
        (upsertFoundUpdates cols (normRow cols r) n p g un).isEmpty = true
    · rw [if_pos hempty] at hok
      simp only [Except.ok.injEq, Prod.mk.injEq] at hok
      rw [← hok.1]
    · rw [if_neg hempty] at hok
      simp only [Except.ok.injEq, Prod.mk.injEq] at hok
      rw [← hok.1]
      rw [List.map_map]
      apply List.map_congr_left
      intro row _
      simp only [Function.comp]
      by_cases hidr : idIs ((jsGet (normRow cols r) "id").getD .null) row = true
      · rw [if_pos hidr]
        exact getVal_applyUpdates_of_none row _ "username" hfind
      · rw [if_neg hidr]

/-- Witness for C3: a repeat login with a derived default newname leaves
the stored username ada untouched. -/
theorem username_never_clobbered_witness :
    (∀ v, ("username", v) ∉ upsertFoundUpdates desiredUserFields
        (normRow desiredUserFields
          [("id", Val.num 1), ("email", Val.str "a@x.com"),
           ("name", Val.str "Ada"), ("picture", Val.null),
           ("google_sub", Val.str "g-1"), ("username", Val.str "ada"),
           ("bio", Val.null), ("phone", Val.null),
           ("address_line1", Val.null), ("address_line2", Val.null),
           ("address_city", Val.null), ("address_state", Val.null),
           ("address_postal", Val.null), ("address_country", Val.null),
           ("role", Val.str "user")])
        (some "Ada Lovelace") (some "pic") (some "g-1") (some "newname")) ∧
      (⟨[[("id", Val.num 1), ("email", Val.str "a@x.com"),
          ("name", Val.str "Ada Lovelace"), ("picture", Val.str "pic"),
          ("google_sub", Val.str "g-1"), ("username", Val.str "ada"),
          ("bio", Val.null), ("phone", Val.null),
          ("address_line1", Val.null), ("address_line2", Val.null),
          ("address_city", Val.null), ("address_state", Val.null),
          ("address_postal", Val.null), ("address_country", Val.null),
          ("role", Val.str "user")]], 2⟩ : Db).rows.map
          (fun row => getVal row "username") =
        (⟨[[("id", Val.num 1), ("email", Val.str "a@x.com"),
            ("name", Val.str "Ada"), ("picture", Val.null),
            ("google_sub", Val.str "g-1"), ("username", Val.str "ada"),
            ("bio", Val.null), ("phone", Val.null),
            ("address_line1", Val.null), ("address_line2", Val.null),
            ("address_city", Val.null), ("address_state", Val.null),
            ("address_postal", Val.null), ("address_country", Val.null),
            ("role", Val.str "user")]], 2⟩ : Db).rows.map
          (fun row => getVal row "username") ∧
      (∀ user v, ("username", v) ∈ upsertFoundUpdates desiredUserFields user
          (some "Ada Lovelace") (some "pic") (some "g-1") (some "newname") →
        truthyVal (jsGet user "username") = false ∧
          (some "newname" : Option String) ≠ none) :=
  username_never_clobbered desiredUserFields
    ⟨[[("id", Val.num 1), ("email", Val.str "a@x.com"),
       ("name", Val.str "Ada"), ("picture", Val.null),
       ("google_sub", Val.str "g-1"), ("username", Val.str "ada"),
       ("bio", Val.null), ("phone", Val.null),
       ("address_line1", Val.null), ("address_line2", Val.null),
       ("address_city", Val.null), ("address_state", Val.null),
       ("address_postal", Val.null), ("address_country", Val.null),
       ("role", Val.str "user")]], 2⟩ "a@x.com"
    (some "Ada Lovelace") (some "pic") (some "g-1") (some "newname")
    [("id", Val.num 1), ("email", Val.str "a@x.com"),
     ("name", Val.str "Ada"), ("picture", Val.null),
     ("google_sub", Val.str "g-1"), ("username", Val.str "ada"),
     ("bio", Val.null), ("phone", Val.null),
     ("address_line1", Val.null), ("address_line2", Val.null),
     ("address_city", Val.null), ("address_state", Val.null),
     ("address_postal", Val.null), ("address_country", Val.null),
     ("role", Val.str "user")]
    ⟨[[("id", Val.num 1), ("email", Val.str "a@x.com"),
       ("name", Val.str "Ada Lovelace"), ("picture", Val.str "pic"),
       ("google_sub", Val.str "g-1"), ("username", Val.str "ada"),
       ("bio", Val.null), ("phone", Val.null),
       ("address_line1", Val.null), ("address_line2", Val.null),
       ("address_city", Val.null), ("address_state", Val.null),
       ("address_postal", Val.null), ("address_country", Val.null),
       ("role", Val.str "user")]], 2⟩
    (some [("id", Val.num 1), ("email", Val.str "a@x.com"),
      ("name", Val.str "Ada Lovelace"), ("picture", Val.str "pic"),
      ("google_sub", Val.str "g-1"), ("username", Val.str "ada"),
      ("bio", Val.null), ("phone", Val.null),
      ("address_line1", Val.null), ("address_line2", Val.null),
      ("address_city", Val.null), ("address_state", Val.null),
      ("address_postal", Val.null), ("address_country", Val.null),
      ("role", Val.str "user")])
    "ada" (by decide) (by decide) (by decide) rfl (by decide) (by decide) rfl

theorem fetchPeopleProfile_none (accessToken : Option String) :
    fetchPeopleProfile accessToken none = none := by
  unfold fetchPeopleProfile
  split <;> rfl

theorem buildPrefillUpdates_people_none
    (user : Option (List (String × Val))) :
    buildPrefillUpdates user none = [] := by
  cases user <;> rfl

/-- Claim C6: when the enrichment call is made with an access token and
the external API responds with a non-success status (response body none),
the failure is swallowed: /auth/google still answers 200 with the base
upserted user, the session cookie is still issued, and the store holds
exactly the state the upsert produced. -/
theorem enrichment_failure_swallowed (cols : List String) (db : Db)
    (secret : String) (now : Nat) (idToken accessToken : Option String)
    (claims : Claims) (db1 : Db) (u : List (String × Val))
    (hid : truthyStr idToken = true)
    (hat : truthyStr accessToken = true)
    (hem : truthyStr claims.email = true)
    (hv : claims.email_verified = true)
    (hup : upsertUserByEmail cols db (claims.email.getD "") claims.name
      claims.picture claims.sub (deriveUsername claims) = .ok (db1, some u))
    (hidv : truthyVal (jsGet u "id") = true) :
    authGoogle cols db secret now idToken accessToken (some claims) none =
      ⟨200, some u,
       some (signSession secret ((jsGet u "id").getD .null) now), db1⟩ := by
  unfold authGoogle
  simp [hid, hem, hv, hup, hidv, hat, fetchPeopleProfile_none,
    buildPrefillUpdates_people_none]

/-- Witness for C6 at a concrete first login whose People API call fails. -/
theorem enrichment_failure_swallowed_witness :
    authGoogle desiredUserFields ⟨[], 1⟩ "k" 0 (some "t") (some "at")
      (some ⟨some "a@x.com", true, some "Ada Lovelace", none, some "g-1"⟩)
      none =
      ⟨200,
       some [("id", Val.num 1), ("email", Val.str "a@x.com"),
         ("name", Val.str "Ada Lovelace"), ("picture", Val.null),
         ("google_sub", Val.str "g-1"), ("username", Val.str "adalovelace"),
         ("bio", Val.null), ("phone", Val.null),
         ("address_line1", Val.null), ("address_line2", Val.null),
         ("address_city", Val.null), ("address_state", Val.null),
         ("address_postal", Val.null), ("address_country", Val.null),
         ("role", Val.str "user")],
       some (signSession "k"
         ((jsGet [("id", Val.num 1), ("email", Val.str "a@x.com"),
           ("name", Val.str "Ada Lovelace"), ("picture", Val.null),
           ("google_sub", Val.str "g-1"), ("username", Val.str "adalovelace"),
           ("bio", Val.null), ("phone", Val.null),
           ("address_line1", Val.null), ("address_line2", Val.null),
           ("address_city", Val.null), ("address_state", Val.null),
           ("address_postal", Val.null), ("address_country", Val.null),
           ("role", Val.str "user")] "id").getD .null) 0),
       ⟨[[("id", Val.num 1), ("email", Val.str "a@x.com"),
          ("name", Val.str "Ada Lovelace"), ("picture", Val.null),
          ("google_sub", Val.str "g-1"), ("username", Val.str "adalovelace"),
          ("bio", Val.null), ("phone", Val.null),
          ("address_line1", Val.null), ("address_line2", Val.null),
          ("address_city", Val.null), ("address_state", Val.null),
          ("address_postal", Val.null), ("address_country", Val.null),
          ("role", Val.str "user")]], 2⟩⟩ :=
  enrichment_failure_swallowed desiredUserFields ⟨[], 1⟩ "k" 0 (some "t")
    (some "at") ⟨some "a@x.com", true, some "Ada Lovelace", none, some "g-1"⟩
    ⟨[[("id", Val.num 1), ("email", Val.str "a@x.com"),
       ("name", Val.str "Ada Lovelace"), ("picture", Val.null),
       ("google_sub", Val.str "g-1"), ("username", Val.str "adalovelace"),
       ("bio", Val.null), ("phone", Val.null),
       ("address_line1", Val.null), ("address_line2", Val.null),
       ("address_city", Val.null), ("address_state", Val.null),
       ("address_postal", Val.null), ("address_country", Val.null),
       ("role", Val.str "user")]], 2⟩
    [("id", Val.num 1), ("email", Val.str "a@x.com"),
     ("name", Val.str "Ada Lovelace"), ("picture", Val.null),
     ("google_sub", Val.str "g-1"), ("username", Val.str "adalovelace"),
     ("bio", Val.null), ("phone", Val.null),
     ("address_line1", Val.null), ("address_line2", Val.null),
     ("address_city", Val.null), ("address_state", Val.null),
     ("address_postal", Val.null), ("address_country", Val.null),
     ("role", Val.str "user")]
    (by decide) (by decide) (by decide) (by decide) rfl (by decide)

/-- Claim C9: a first login derives the created row's username from the
verified name by lower-casing and removing all whitespace, falling back
to the email local-part when no usable name is present; role defaults to
user whenever that column exists; and the concrete assertion with email
a@x.com, verified, name Ada Lovelace and subject g-1 on an empty store
yields a 200 response whose new user has username adalovelace, role user,
name and google_sub from the assertion, and every other optional field
null. -/
theorem first_login_derived_defaults :
    (∀ (c : Claims) (nm : String), c.name = some nm → jsTrim nm ≠ "" →
      deriveUsername c = some (stripWhitespace (jsToLower (jsTrim nm)))) ∧
    (∀ (c : Claims) (em : String), jsTrim (c.name.getD "") = "" →
      c.email = some em → jsTrim em ≠ "" →
      emailLocalPart (jsTrim em) ≠ "" →
      deriveUsername c = some (emailLocalPart (jsTrim em))) ∧
    (∀ (cols : List String) (email : String) (n p g un : Option String)
      (nid : Nat), "role" ∈ cols →
      getVal (insertRow cols nid (insertPairs cols email n p g un)) "role" =
        Val.str "user") ∧
    authGoogle desiredUserFields ⟨[], 1⟩ "k" 0 (some "t") none
      (some ⟨some "a@x.com", true, some "Ada Lovelace", none, some "g-1"⟩)
      none =
      ⟨200,
       some [("id", Val.num 1), ("email", Val.str "a@x.com"),
         ("name", Val.str "Ada Lovelace"), ("picture", Val.null),
         ("google_sub", Val.str "g-1"), ("username", Val.str "adalovelace"),
         ("bio", Val.null), ("phone", Val.null),
         ("address_line1", Val.null), ("address_line2", Val.null),
         ("address_city", Val.null), ("address_state", Val.null),
         ("address_postal", Val.null), ("address_country", Val.null),
         ("role", Val.str "user")],
       some (signSession "k" (Val.num 1) 0),
       ⟨[[("id", Val.num 1), ("email", Val.str "a@x.com"),
          ("name", Val.str "Ada Lovelace"), ("picture", Val.null),
          ("google_sub", Val.str "g-1"), ("username", Val.str "adalovelace"),
          ("bio", Val.null), ("phone", Val.null),
          ("address_line1", Val.null), ("address_line2", Val.null),
          ("address_city", Val.null), ("address_state", Val.null),
          ("address_postal", Val.null), ("address_country", Val.null),
          ("role", Val.str "user")]], 2⟩⟩ := by
  refine ⟨?_, ?_, ?_, ?_⟩
  · intro c nm hnm hne
    simp [deriveUsername, hnm, hne]
  · intro c em hname hem hne1 hne2
    simp [deriveUsername, hname, hem, hne1, hne2]
  · intro cols email n p g un nid hrole
    rw [getVal_insertRow, if_pos hrole, if_neg (by decide)]
    have hcr : cols.contains "role" = true := List.elem_iff.mpr hrole
    unfold insertPairs
    rw [hcr]
    split_ifs <;> simp_all [getVal_eq_jsGet, jsGet_append, jsGet_cons, jsGet]
  · rfl

/-- Witness for C9 instantiating the derivation rules at the concrete
assertion of the scenario. -/
theorem first_login_derived_defaults_witness :
    (deriveUsername ⟨some "a@x.com", true, some "Ada Lovelace", none,
        some "g-1"⟩ =
      some (stripWhitespace (jsToLower (jsTrim "Ada Lovelace")))) ∧
    (deriveUsername ⟨some "b@y.org", true, none, none, some "g-2"⟩ =
      some (emailLocalPart (jsTrim "b@y.org"))) ∧
    getVal (insertRow desiredUserFields 1
        (insertPairs desiredUserFields "a@x.com" (some "Ada Lovelace") none
          (some "g-1") (some "adalovelace"))) "role" = Val.str "user" :=
  ⟨first_login_derived_defaults.1
      ⟨some "a@x.com", true, some "Ada Lovelace", none, some "g-1"⟩
      "Ada Lovelace" rfl (by decide),
   first_login_derived_defaults.2.1
      ⟨some "b@y.org", true, none, none, some "g-2"⟩ "b@y.org"
      (by decide) rfl (by decide) (by decide),
   first_login_derived_defaults.2.2.1 desiredUserFields "a@x.com"
      (some "Ada Lovelace") none (some "g-1") (some "adalovelace") 1
      (by decide)⟩

theorem upsertFoundUpdates_find?_none (cols : List String)
    (user : List (String × Val)) (n p g un : Option String) (f : String)
    (hf1 : f ≠ "name") (hf2 : f ≠ "picture") (hf3 : f ≠ "google_sub")
    (hf4 : f ≠ "username") :
    (upsertFoundUpdates cols user n p g un).find? (fun q => q.1 == f) =
      none := by
  rw [List.find?_eq_none]
  intro q hq hq2
  have hq1 : q.1 = f := by simpa using hq2
  rcases (mem_upsertFoundUpdates cols user n p g un q).mp hq with
    ⟨_, rfl⟩ | ⟨_, rfl⟩ | ⟨_, rfl⟩ | ⟨_, rfl⟩ <;> simp_all

theorem getVal_insertPairs_email (cols : List String) (email : String)
    (n p g un : Option String) :
    getVal (insertPairs cols email n p g un) "email" = Val.str email := by
  unfold insertPairs
  rw [getVal_eq_jsGet]
  simp [jsGet_append, jsGet_cons]

/-- Claim C4: on a well-formed store (pairwise distinct row ids) with the
mandatory columns present, a successful upsertUserByEmail followed
immediately by selectUser on the same email returns exactly the record
the upsert returned; that record carries every field of the canonical
15-field user shape, and every desired field whose column is absent from
the discovered column set reads as null rather than being omitted. -/
theorem upsert_select_roundtrip (cols : List String) (db : Db)
    (email : String) (n p g un : Option String) (db2 : Db)
    (u2 : Option (List (String × Val)))
    (hid : "id" ∈ cols) (hem : "email" ∈ cols)
    (hnd : (db.rows.map (fun row => getVal row "id")).Nodup)
    (hok : upsertUserByEmail cols db email n p g un = .ok (db2, u2)) :
    ∃ u, u2 = some u ∧
      selectUser cols db2 (emailIs email) = .ok (some u) ∧
      u.map Prod.fst = desiredUserFields ∧
      ∀ f ∈ desiredUserFields, cols.contains f = false →
        jsGet u f = some Val.null := by
  have hcid : cols.contains "id" = true := List.elem_iff.mpr hid
  have hcem : cols.contains "email" = true := List.elem_iff.mpr hem
  have hshape : ∀ row : List (String × Val),
      (normRow cols row).map Prod.fst = desiredUserFields ∧
        ∀ f ∈ desiredUserFields, cols.contains f = false →
          jsGet (normRow cols row) f = some Val.null := by
    intro row
    refine ⟨keys_normRow cols row, ?_⟩
    intro f hf hc
    rw [jsGet_normRow, if_pos hf, hc]
    simp
  by_cases hgsb : (cols.contains "google_sub" && !truthyStr g) = true
  · rw [upsertUserByEmail] at hok
    rw [hgsb] at hok
    rw [hcid, hcem] at hok
    simp only [Bool.not_true, Bool.or_self] at hok
    rw [if_pos (by trivial)] at hok
    cases hok
  · have hgsb' : (cols.contains "google_sub" && !truthyStr g) = false :=
      Bool.not_eq_true _ ▸ hgsb
    cases hfound : db.rows.find? (emailIs email) with
    | none =>
      rw [upsert_notfound cols db email n p g un hid hem hgsb' hfound] at hok
      simp only [Except.ok.injEq, Prod.mk.injEq] at hok
      obtain ⟨hdb2, hu2⟩ := hok
      refine ⟨normRow cols
        (insertRow cols db.nextId (insertPairs cols email n p g un)),
        hu2.symm, ?_, hshape _⟩
      rw [selectUser_eq cols db2 (emailIs email) hid hem, ← hdb2]
      have hmail : emailIs email
          (insertRow cols db.nextId (insertPairs cols email n p g un)) =
            true := by
        unfold emailIs
        rw [getVal_insertRow, if_pos hem, if_neg (by decide),
          getVal_insertPairs_email]
        simp
      rw [List.find?_append, hfound]
      rw [List.find?_cons_of_pos _ hmail]
      rfl
    | some r =>
      rw [upsert_found cols db email n p g un r hid hem hgsb' hfound] at hok
      simp only at hok
      have hidval : (jsGet (normRow cols r) "id").getD Val.null =
          getVal r "id" := by
        rw [jsGet_normRow, if_pos (by decide), hcid]
        simp
      by_cases hempty :
          (upsertFoundUpdates cols (normRow cols r) n p g un).isEmpty = true
      · rw [if_pos hempty] at hok
        simp only [Except.ok.injEq, Prod.mk.injEq] at hok
        obtain ⟨hdb2, hu2⟩ := hok
        refine ⟨normRow cols r, hu2.symm, ?_, hshape _⟩
        rw [selectUser_eq cols db2 (emailIs email) hid hem, ← hdb2, hfound]
        rfl
      · rw [if_neg hempty] at hok
        rw [hidval] at hok
        simp only [Except.ok.injEq, Prod.mk.injEq] at hok
        obtain ⟨hdb2, hu2⟩ := hok
        obtain ⟨hpred, as, bs, hsplit, hprev⟩ :=
          List.find?_eq_some.mp hfound
        have hprev' : ∀ a ∈ as, emailIs email a = false := by
          intro a ha
          have := hprev a ha
          simpa using this
        rw [hsplit] at hnd
        rw [List.map_append, List.map_cons] at hnd
        rw [List.nodup_append] at hnd
        have hnotas : ∀ a ∈ as, getVal a "id" ≠ getVal r "id" := by
          intro a ha h
          exact hnd.2.2 (List.mem_map_of_mem _ ha)
            (h ▸ List.mem_cons_self _ _)
        have hupd := upsertFoundUpdates_find?_none cols (normRow cols r)
          n p g un
        have hid_pres : getVal (applyUpdates r
            (upsertFoundUpdates cols (normRow cols r) n p g un)) "id" =
              getVal r "id" :=
          getVal_applyUpdates_of_none _ _ _
            (hupd "id" (by decide) (by decide) (by decide) (by decide))
        have hem_pres : getVal (applyUpdates r
            (upsertFoundUpdates cols (normRow cols r) n p g un)) "email" =
              getVal r "email" :=
          getVal_applyUpdates_of_none _ _ _
            (hupd "email" (by decide) (by decide) (by decide) (by decide))
        have hstep_as : ∀ a ∈ as,
            (if idIs (getVal r "id") a = true then applyUpdates a
              (upsertFoundUpdates cols (normRow cols r) n p g un)
             else a) = a := by
          intro a ha
          rw [if_neg]
          unfold idIs
          simp [hnotas a ha]
        have hstep_r : (if idIs (getVal r "id") r = true then applyUpdates r
            (upsertFoundUpdates cols (normRow cols r) n p g un)
           else r) = applyUpdates r
            (upsertFoundUpdates cols (normRow cols r) n p g un) := by
          rw [if_pos]
          unfold idIs
          simp
        rw [hsplit] at hdb2
        rw [List.map_append, List.map_cons] at hdb2
        rw [List.map_congr_left hstep_as, hstep_r] at hdb2
        simp only [List.map_id'] at hdb2
        have hfind_as : ∀ (pred : List (String × Val) → Bool),
            (∀ a ∈ as, pred a = false) →
            (as ++ applyUpdates r
                (upsertFoundUpdates cols (normRow cols r) n p g un) ::
                  (bs.map (fun row =>
                    if idIs (getVal r "id") row = true then applyUpdates row
                      (upsertFoundUpdates cols (normRow cols r) n p g un)
                    else row))).find? pred =
              if pred (applyUpdates r
                (upsertFoundUpdates cols (normRow cols r) n p g un)) then
                some (applyUpdates r
                  (upsertFoundUpdates cols (normRow cols r) n p g un))
              else (bs.map (fun row =>
                    if idIs (getVal r "id") row = true then applyUpdates row
                      (upsertFoundUpdates cols (normRow cols r) n p g un)
                    else row)).find? pred := by
          intro pred hfail
          rw [List.find?_append]
          rw [List.find?_eq_none.mpr (fun a ha => by simp [hfail a ha])]
          rw [List.find?_cons]
          cases hp : pred (applyUpdates r
            (upsertFoundUpdates cols (normRow cols r) n p g un)) <;> simp
        have hu2' : u2 = some (normRow cols (applyUpdates r
            (upsertFoundUpdates cols (normRow cols r) n p g un))) := by
          rw [← hu2, hsplit]
          rw [List.map_append, List.map_cons]
          rw [List.map_congr_left hstep_as, hstep_r]
          simp only [List.map_id']
          rw [hfind_as (idIs (getVal r "id")) (fun a ha => by
            unfold idIs
            simp [hnotas a ha])]
          rw [if_pos (by
            unfold idIs
            rw [hid_pres]
            simp)]
          rfl
        refine ⟨normRow cols (applyUpdates r
          (upsertFoundUpdates cols (normRow cols r) n p g un)),
          hu2', ?_, hshape _⟩
        rw [selectUser_eq cols db2 (emailIs email) hid hem, ← hdb2]
        rw [hfind_as (emailIs email) hprev']
        rw [if_pos (by
          unfold emailIs
          rw [hem_pres]
          unfold emailIs at hpred
          exact hpred)]
        rfl

/-- Witness for C4 at a concrete first upsert on an empty store. -/
theorem upsert_select_roundtrip_witness :
    ∃ u, (some [("id", Val.num 1), ("email", Val.str "a@x.com"),
        ("name", Val.str "Ada Lovelace"), ("picture", Val.null),
        ("google_sub", Val.str "g-1"), ("username", Val.str "adalovelace"),
        ("bio", Val.null), ("phone", Val.null),
        ("address_line1", Val.null), ("address_line2", Val.null),
        ("address_city", Val.null), ("address_state", Val.null),
        ("address_postal", Val.null), ("address_country", Val.null),
        ("role", Val.str "user")] :
          Option (List (String × Val))) = some u ∧
      selectUser desiredUserFields
        ⟨[[("id", Val.num 1), ("email", Val.str "a@x.com"),
           ("name", Val.str "Ada Lovelace"), ("picture", Val.null),
           ("google_sub", Val.str "g-1"), ("username", Val.str "adalovelace"),
           ("bio", Val.null), ("phone", Val.null),
           ("address_line1", Val.null), ("address_line2", Val.null),
           ("address_city", Val.null), ("address_state", Val.null),
           ("address_postal", Val.null), ("address_country", Val.null),
           ("role", Val.str "user")]], 2⟩ (emailIs "a@x.com") =
        .ok (some u) ∧
      u.map Prod.fst = desiredUserFields ∧
      ∀ f ∈ desiredUserFields, desiredUserFields.contains f = false →
        jsGet u f = some Val.null :=
  upsert_select_roundtrip desiredUserFields ⟨[], 1⟩ "a@x.com"
    (some "Ada Lovelace") none (some "g-1") (some "adalovelace")
    ⟨[[("id", Val.num 1), ("email", Val.str "a@x.com"),
       ("name", Val.str "Ada Lovelace"), ("picture", Val.null),
       ("google_sub", Val.str "g-1"), ("username", Val.str "adalovelace"),
       ("bio", Val.null), ("phone", Val.null),
       ("address_line1", Val.null), ("address_line2", Val.null),
       ("address_city", Val.null), ("address_state", Val.null),
       ("address_postal", Val.null), ("address_country", Val.null),
       ("role", Val.str "user")]], 2⟩
    (some [("id", Val.num 1), ("email", Val.str "a@x.com"),
      ("name", Val.str "Ada Lovelace"), ("picture", Val.null),
      ("google_sub", Val.str "g-1"), ("username", Val.str "adalovelace"),
      ("bio", Val.null), ("phone", Val.null),
      ("address_line1", Val.null), ("address_line2", Val.null),
      ("address_city", Val.null), ("address_state", Val.null),
      ("address_postal", Val.null), ("address_country", Val.null),
      ("role", Val.str "user")])
    (by decide) (by decide) (by decide) rfl

end GmailAuth
